import Mathlib

/-!
Shallow embedding of the DonutShopAutoDeliver purchase pipeline.

Sources embedded here:
* `src/index.js` — webhook server: SellAuth structured-invoice handler,
  Discord label-block parser, purchase processor, amount formatter,
  command queue.
* `src/unnamed/part_000` — variant of the same pipeline whose Discord parser
  uses an embed field list (the field-list strategy).

JavaScript values are modelled with `Option`/`String`/`Int`; `null` and
`undefined` are both `none`, JS falsiness of strings ("" is falsy) and
numbers (0 is falsy) is modelled explicitly.  JS numbers are modelled as
exact integers / exact decimal fractions, which agrees with JS semantics on
the safe-integer range the program works in.
-/

namespace DonutShop

/-! ## JS string primitives (List Char based, kernel-reducible) -/

/-- Check whether `pat` occurs at the head of `l` (helper for substring search). -/
def startsWithChars : List Char → List Char → Bool
  | _, [] => true
  | [], _ :: _ => false
  | c :: cs, p :: ps => c == p && startsWithChars cs ps

/-- Check whether `pat` occurs anywhere in `l`; models JS `String.prototype.includes`
    (the empty pattern is contained in every string). -/
def charsContain (pat : List Char) : List Char → Bool
  | [] => startsWithChars [] pat
  | c :: rest => startsWithChars (c :: rest) pat || charsContain pat rest

/-- Models JS `hay.includes(sub)`. -/
def containsSub (hay sub : String) : Bool :=
  charsContain sub.data hay.data

/-- Models JS `String.prototype.toLowerCase` (ASCII range, which covers the
    program's field names and catalog names). -/
def toLowerStr (s : String) : String :=
  String.mk (s.data.map Char.toLower)

/-- Models JS `String.prototype.trim`. -/
def jsTrim (s : String) : String :=
  String.mk (((s.data.dropWhile Char.isWhitespace).reverse.dropWhile Char.isWhitespace).reverse)

/-- Models `line.replace(/\*\*/g, '')`: delete every occurrence of `**`,
    scanning left to right. -/
def stripStars : List Char → List Char
  | [] => []
  | '*' :: '*' :: rest => stripStars rest
  | c :: rest => c :: stripStars rest

/-- Split a character list at every occurrence of `sep`; models JS
    `String.prototype.split` with a single-character separator. -/
def splitCharAux (sep : Char) : List Char → List (List Char)
  | [] => [[]]
  | c :: rest =>
    let r := splitCharAux sep rest
    if c == sep then [] :: r
    else
      match r with
      | [] => [[c]]
      | h :: t => (c :: h) :: t

/-- Models JS `s.split('\n')`. -/
def splitLinesJs (s : String) : List String :=
  (splitCharAux '\n' s.data).map String.mk

/-! ## JS number / truthiness primitives -/

/-- Value of a decimal digit run, most significant first. -/
def digitsToNat (l : List Char) : Nat :=
  l.foldl (fun a c => a * 10 + (c.toNat - '0'.toNat)) 0

/-- Hexadecimal digit test. -/
def isHexDigitCh (c : Char) : Bool :=
  c.isDigit || ('a' ≤ c && c ≤ 'f') || ('A' ≤ c && c ≤ 'F')

/-- Value of a hexadecimal digit. -/
def hexDigitVal (c : Char) : Nat :=
  if c.isDigit then c.toNat - '0'.toNat
  else if 'a' ≤ c ∧ c ≤ 'f' then c.toNat - 'a'.toNat + 10
  else c.toNat - 'A'.toNat + 10

/-- Models JS `parseInt(s)` (radix auto-detection): skip leading whitespace,
    optional sign, then either a `0x`/`0X` hexadecimal digit run or a decimal
    digit run; `none` models the `NaN` result when no digits are found. -/
def parseIntJs (s : String) : Option Int :=
  let l := s.data.dropWhile Char.isWhitespace
  let signed : Bool × List Char :=
    match l with
    | '-' :: r => (true, r)
    | '+' :: r => (false, r)
    | _ => (false, l)
  let core : Option Nat :=
    match signed.2 with
    | '0' :: 'x' :: r =>
      let hs := r.takeWhile isHexDigitCh
      if hs.isEmpty then none else some (hs.foldl (fun a c => a * 16 + hexDigitVal c) 0)
    | '0' :: 'X' :: r =>
      let hs := r.takeWhile isHexDigitCh
      if hs.isEmpty then none else some (hs.foldl (fun a c => a * 16 + hexDigitVal c) 0)
    | l2 =>
      let ds := l2.takeWhile Char.isDigit
      if ds.isEmpty then none else some (digitsToNat ds)
  core.map (fun n => if signed.1 then -(n : Int) else (n : Int))

/-- JS truthiness of a possibly-absent string: `undefined`, `null` and `""`
    are falsy, every other string is truthy. -/
def truthyOpt : Option String → Bool
  | some s => !(s == "")
  | none => false

/-- Models JS `a || b` on possibly-absent strings. -/
def jsOrStr (a b : Option String) : Option String :=
  match a with
  | some s => if s == "" then b else some s
  | none => b

/-- Models JS `a || b` on a possibly-absent number with default `b`
    (`0` is falsy, as in `item.quantity || 1`). -/
def jsOrInt (a : Option Int) (b : Int) : Int :=
  match a with
  | some n => if n == 0 then b else n
  | none => b

/-- Models JS object property lookup `m[k]` on an object with string values,
    represented as an association list (JS objects have unique keys). -/
def jsLookup {α : Type} (m : List (String × α)) (k : String) : Option α :=
  (m.find? (fun p => p.1 == k)).map (fun p => p.2)

/-! ## Amount formatter (`formatAmount`, src/index.js lines 375-382) -/

/-- Left-pad a digit list with zeros to length `k`. -/
def padZeroTo (k : Nat) (ds : List Char) : List Char :=
  List.replicate (k - ds.length) '0' ++ ds

/-- Drop trailing zero digits (JS number printing omits them). -/
def dropTrailingZeros (ds : List Char) : List Char :=
  (ds.reverse.dropWhile (fun c => c == '0')).reverse

/-- Exact decimal printing of `amount / 10^k`, modelling JS float division
    followed by default number-to-string conversion.  For the safe-integer
    amounts this program handles, the quotient has a terminating decimal
    expansion of at most `k` digits and JS shortest-round-trip printing
    produces exactly that expansion. -/
def formatScaled (amount : Int) (k : Nat) : String :=
  if amount % (10 : Int) ^ k = 0 then toString (amount / (10 : Int) ^ k)
  else
    toString (amount / (10 : Int) ^ k) ++ "." ++
      String.mk (dropTrailingZeros (padZeroTo k (Nat.toDigits 10 (amount % (10 : Int) ^ k).toNat)))

/-- `formatAmount` from src/index.js lines 375-382 (identical in
    src/unnamed/part_000 lines 351-358). -/
def formatAmount (amount : Int) : String :=
  if amount ≥ 1000000 then formatScaled amount 6 ++ "m"
  else if amount ≥ 1000 then formatScaled amount 3 ++ "k"
  else toString amount

/-! ## Product catalog and purchase processor
    (`processPurchase`, src/index.js lines 317-372; src/unnamed/part_000
    lines 276-348 is the same matching and command logic). -/

/-- One catalog entry of `CONFIG.products`: `{ name, amountPerUnit,
    onPurchaseCommand }`. -/
structure ProductConfig where
  name : String
  amountPerUnit : Int
  onPurchaseCommand : Option String
deriving DecidableEq, Repr

/-- The default catalog returned by `parseProductConfig` when no
    `PRODUCT_CONFIG` is set (src/index.js lines 36-45). -/
def defaultProducts : List (String × ProductConfig) :=
  [("default", { name := "Default Package", amountPerUnit := 1000000,
                 onPurchaseCommand := some "/afk 33" })]

/-- The purchase-data object built by the parsers and consumed by
    `processPurchase`.  Fields not set on a given code path stay `none`
    (JS `undefined`). -/
structure PurchaseData where
  invoiceId : Option String
  productName : Option String
  quantity : Int
  inGameName : Option String
  productId : Option String
  status : Option String
  price : Option String
deriving DecidableEq, Repr

/-- Result of the name-based catalog scan
    (`for (const [productId, config] of Object.entries(CONFIG.products))`,
    src/index.js lines 341-347).  `thrown` models the TypeError raised by
    `data.productName.toLowerCase()` when `productName` is null/undefined and
    the loop body runs at least once. -/
inductive NameMatchResult
  | thrown
  | found (pid : String) (cfg : ProductConfig)
  | noMatch
deriving DecidableEq, Repr

/-- The name-matching loop of `processPurchase`: first catalog entry whose
    `name` equals `data.productName` case-insensitively. -/
def findByName (pname? : Option String) : List (String × ProductConfig) → NameMatchResult
  | [] => .noMatch
  | (pid, cfg) :: rest =>
    match pname? with
    | none => .thrown
    | some pname =>
      if toLowerStr cfg.name == toLowerStr pname then .found pid cfg
      else findByName (some pname) rest

/-- Product resolution of `processPurchase` (src/index.js lines 332-348):
    `if (data.productId && CONFIG.products[data.productId])` use that entry,
    otherwise run the name-matching loop. -/
def resolveProduct (products : List (String × ProductConfig))
    (pid? pname? : Option String) : NameMatchResult :=
  match pid? with
  | some pid =>
    match (if pid = "" then none else jsLookup products pid) with
    | some cfg => .found pid cfg
    | none => findByName pname? products
  | none => findByName pname? products

/-- Outcome classification of one `processPurchase` run. -/
inductive Outcome
  | missingRecipient
  | unknownProduct
  | success
deriving DecidableEq, Repr

/-- Result of `processPurchase`: either a thrown TypeError, or the list of
    commands handed to `queueCommand` (in call order) with the outcome. -/
inductive ProcResult
  | thrown
  | done (commands : List String) (outcome : Outcome)
deriving DecidableEq, Repr

/-- `processPurchase` (src/index.js lines 317-372): reject a missing in-game
    name, resolve the product, then enqueue the optional `onPurchaseCommand`
    followed by the `/pay` command for `amountPerUnit * quantity`. -/
def processPurchase (products : List (String × ProductConfig))
    (d : PurchaseData) : ProcResult :=
  if truthyOpt d.inGameName then
    match resolveProduct products d.productId d.productName with
    | .thrown => .thrown
    | .noMatch => .done [] .unknownProduct
    | .found _pid cfg =>
      let onCmds : List String :=
        match cfg.onPurchaseCommand with
        | some c => if c = "" then [] else [c]
        | none => []
      let pay : String :=
        "/pay " ++ d.inGameName.getD "" ++ " " ++
          formatAmount (cfg.amountPerUnit * d.quantity)
      .done (onCmds ++ [pay]) .success
  else .done [] .missingRecipient

example :
    processPurchase defaultProducts
      { invoiceId := some "I1", productName := some "default package",
        quantity := 2, inGameName := some "Steve", productId := none,
        status := some "completed", price := none }
      = .done ["/afk 33", "/pay Steve 2m"] .success := by decide

example :
    processPurchase defaultProducts
      { invoiceId := some "I1", productName := none, quantity := 1,
        inGameName := some "Steve", productId := none,
        status := some "completed", price := none } = .thrown := by decide

example : formatAmount 999 = "999" := by decide
example : formatAmount 1000 = "1k" := by decide
example : formatAmount 1000000 = "1m" := by decide
example : formatAmount 1500000 = "1.5m" := by decide
example : formatAmount 1001 = "1.001k" := by decide
example : formatAmount 2500 = "2.5k" := by decide

/-! ## Discord embed payloads -/

/-- One `{ name, value }` entry of an embed field list. -/
structure EmbedField where
  name : String
  value : String
deriving DecidableEq, Repr

/-- A Discord embed: title, free-text description, field list.  Absent
    properties are `none`. -/
structure Embed where
  title : Option String
  description : Option String
  fields : Option (List EmbedField)
deriving DecidableEq, Repr

/-- A Discord webhook request body. -/
structure DiscordBody where
  embeds : Option (List Embed)
deriving DecidableEq, Repr

/-- Initial `data` object of both Discord parsers (src/index.js lines
    242-250, src/unnamed/part_000 lines 224-231): quantity defaults to 1,
    status to "completed", everything else unset. -/
def initDiscordData : PurchaseData :=
  { invoiceId := none, productName := none, quantity := 1, inGameName := none,
    productId := none, status := some "completed", price := none }

/-! ### Field-list strategy (src/unnamed/part_000 lines 239-257) -/

/-- Category a field name is classified into by the if/else chain of the
    field loop. -/
inductive FieldCat
  | invoice
  | product
  | quantity
  | recipient
  | productId
  | other
deriving DecidableEq, Repr

/-- Classification of one field name, mirroring the if/else chain of
    src/unnamed/part_000 lines 241-255: the name is lowercased and tested by
    substring containment against each category's keywords in order. -/
def classifyField (cfn : String) (name : String) : FieldCat :=
  let n := toLowerStr name
  if containsSub n "invoice" || containsSub n "order" then .invoice
  else if containsSub n "product" || containsSub n "item" then .product
  else if containsSub n "quantity" || containsSub n "amount" then .quantity
  else if containsSub n cfn || containsSub n "username" || containsSub n "ign" then .recipient
  else if containsSub n "product id" || containsSub n "id" then .productId
  else .other

/-- Effect of one loop iteration of the field-list strategy on the `data`
    object: every category assigns `field.value` directly (overwriting any
    earlier value); quantity additionally runs `parseInt` and keeps the old
    value when the result is NaN. -/
def parseFieldStep (cfn : String) (d : PurchaseData) (f : EmbedField) : PurchaseData :=
  match classifyField cfn f.name with
  | .invoice => { d with invoiceId := some f.value }
  | .product => { d with productName := some f.value }
  | .quantity =>
    match parseIntJs f.value with
    | some q => { d with quantity := q }
    | none => d
  | .recipient => { d with inGameName := some f.value }
  | .productId => { d with productId := some f.value }
  | .other => d

/-- The `for (const field of embed.fields)` loop of src/unnamed/part_000
    lines 240-256. -/
def parseEmbedFields (cfn : String) (fields : List EmbedField) (d : PurchaseData) :
    PurchaseData :=
  List.foldl (parseFieldStep cfn) d fields

example :
    parseEmbedFields "in_game_name"
      [⟨"Invoice ID", "INV1"⟩, ⟨"Product", "Gold Pack"⟩, ⟨"Quantity", "2"⟩,
       ⟨"Username", "Steve"⟩] initDiscordData
      = { invoiceId := some "INV1", productName := some "Gold Pack",
          quantity := 2, inGameName := some "Steve", productId := none,
          status := some "completed", price := none } := by decide

/-! ### Label-block strategy (src/index.js lines 225-314) -/

/-- Leftmost match of the regex `(\d+)\s*x` tried at one position: a
    non-empty digit run, any whitespace, then the letter `x`; returns the
    digit run's value. -/
def matchDigitsThenX (l : List Char) : Option Nat :=
  let ds := l.takeWhile Char.isDigit
  if ds.isEmpty then none
  else
    match (l.drop ds.length).dropWhile Char.isWhitespace with
    | 'x' :: _ => some (digitsToNat ds)
    | _ => none

/-- Scan for the leftmost occurrence of `(\d+)\s*x` in a price line, as in
    `priceLine.match(/(\d+)\s*x/)` (src/index.js line 286). -/
def findQtyX : List Char → Option Nat
  | [] => none
  | c :: rest =>
    match matchDigitsThenX (c :: rest) with
    | some n => some n
    | none => findQtyX rest

/-- One iteration of the description scan (src/index.js lines 262-303):
    `line` is `lines[i]`, `next` is `lines[i + 1]`.  The label is the trimmed
    line with all `**` markers removed; each recognized label stores the
    trimmed next line. -/
def scanStep (cfn : String) (d : PurchaseData) (line next : String) : PurchaseData :=
  let clean := String.mk (stripStars (jsTrim line).data)
  if clean == "Invoice ID" then { d with invoiceId := some (jsTrim next) }
  else if clean == "Product" then { d with productName := some (jsTrim next) }
  else if clean == "Price" then
    match findQtyX (jsTrim next).data with
    | some q => { d with price := some (jsTrim next), quantity := (q : Int) }
    | none => { d with price := some (jsTrim next) }
  else if clean == "In game name" then { d with inGameName := some (jsTrim next) }
  else if clean == cfn then { d with inGameName := some (jsTrim next) }
  else d

/-- The indexed loop over description lines: each line is paired with its
    successor (the loop guards every assignment with `i + 1 < lines.length`,
    so the final line cannot start a label/value pair). -/
def scanDescLines (cfn : String) : PurchaseData → List String → PurchaseData
  | d, l1 :: l2 :: rest => scanDescLines cfn (scanStep cfn d l1 l2) (l2 :: rest)
  | d, _ => d

/-- `parseDiscordWebhook` of src/index.js lines 225-314 (label-block
    strategy): require an embed, a title containing "sale", a non-empty
    description, scan the lines, and reject when no in-game name was found. -/
def parseDiscordWebhook (cfn : String) (body : DiscordBody) : Option PurchaseData :=
  match body.embeds with
  | none => none
  | some [] => none
  | some (embed :: _) =>
    match embed.title with
    | none => none
    | some t =>
      if containsSub (toLowerStr t) "sale" then
        match embed.description with
        | none => none
        | some desc =>
          if desc == "" then none
          else
            let d := scanDescLines cfn initDiscordData (splitLinesJs desc)
            if truthyOpt d.inGameName then some d else none
      else none

example :
    parseDiscordWebhook "in_game_name"
      ⟨some [⟨some "New Sale", some "**Invoice ID**\nINV2\n**Product**\nGold Pack\n**Price**\n3 x $0.15\n**In game name**\nAlex", none⟩]⟩
      = some { invoiceId := some "INV2", productName := some "Gold Pack",
               quantity := 3, inGameName := some "Alex", productId := none,
               status := some "completed", price := some "3 x $0.15" } := by decide

/-! ## SellAuth structured-invoice webhook
    (`app.post('/webhook/sellauth')`, src/index.js lines 389-461) -/

/-- One entry of the array-shaped `custom_field_values` list. -/
structure CustomFieldEntry where
  name : String
  value : Option String
deriving DecidableEq, Repr

/-- One invoice line item. -/
structure InvoiceItem where
  product_name : Option String
  name : Option String
  quantity : Option Int
deriving DecidableEq, Repr

/-- A SellAuth invoice body.  `custom_fields` is the map-shaped custom-field
    object (an association list; `none` covers the JS cases absent, `null`
    and non-object, all of which fail the
    `invoice.custom_fields && typeof invoice.custom_fields === 'object'`
    test); `custom_field_values` is the array-shaped list. -/
structure Invoice where
  id : Option String
  invoice_id : Option String
  status : Option String
  custom_fields : Option (List (String × String))
  custom_field_values : Option (List CustomFieldEntry)
  items : Option (List InvoiceItem)
deriving DecidableEq, Repr

/-- Recipient-name extraction of the SellAuth handler (src/index.js lines
    422-431): an `else if` chain, so the array-shaped list is consulted only
    when the map-shaped object is not present. -/
def resolveInGameName (cfn : String) (inv : Invoice) : Option String :=
  match inv.custom_fields with
  | some m => jsLookup m cfn
  | none =>
    match inv.custom_field_values with
    | some arr =>
      match arr.find? (fun f => f.name == cfn) with
      | some f => f.value
      | none => none
    | none => none

/-- Result of one webhook request: HTTP status, the `data` snapshots passed
    to `processPurchase` (in call order), and every command handed to
    `queueCommand` (in call order). -/
structure HandlerResult where
  httpStatus : Nat
  records : List PurchaseData
  commands : List String
deriving DecidableEq, Repr

/-- The `for (const item of invoice.items)` loop (src/index.js lines
    442-450): per item, build the record from `item.product_name || item.name`
    and `item.quantity || 1` and run `processPurchase`.  A thrown TypeError
    aborts the loop (the flag in the result records it); commands enqueued by
    earlier items are retained. -/
def processItems (products : List (String × ProductConfig))
    (invoiceId status inGameName : Option String) :
    List InvoiceItem → List PurchaseData × List String × Bool
  | [] => ([], [], false)
  | item :: rest =>
    let d : PurchaseData :=
      { invoiceId := invoiceId,
        productName := jsOrStr item.product_name item.name,
        quantity := jsOrInt item.quantity 1,
        inGameName := inGameName, productId := none,
        status := status, price := none }
    match processPurchase products d with
    | .done cmds _ =>
      let r := processItems products invoiceId status inGameName rest
      (d :: r.1, cmds ++ r.2.1, r.2.2)
    | .thrown => ([d], [], true)

/-- The `/webhook/sellauth` handler (src/index.js lines 389-461): skip
    non-completed invoices with 200, resolve the in-game name (200 when it is
    falsy), then process each item; an uncaught TypeError reaches the catch
    block and answers 500. -/
def handleSellauth (cfn : String) (products : List (String × ProductConfig))
    (inv : Invoice) : HandlerResult :=
  let invoiceId := jsOrStr inv.id inv.invoice_id
  if inv.status == some "completed" then
    if truthyOpt (resolveInGameName cfn inv) then
      match inv.items with
      | some items =>
        let r := processItems products invoiceId inv.status
          (resolveInGameName cfn inv) items
        ⟨if r.2.2 then 500 else 200, r.1, r.2.1⟩
      | none => ⟨200, [], []⟩
    else ⟨200, [], []⟩
  else ⟨200, [], []⟩

/-- The `/webhook/discord` handler of src/index.js lines 464-485: parse the
    body; a `null` parse is acknowledged with 200; a thrown TypeError inside
    `processPurchase` reaches the catch block and answers 500. -/
def handleDiscord (cfn : String) (products : List (String × ProductConfig))
    (body : DiscordBody) : HandlerResult :=
  match parseDiscordWebhook cfn body with
  | none => ⟨200, [], []⟩
  | some d =>
    match processPurchase products d with
    | .done cmds _ => ⟨200, [d], cmds⟩
    | .thrown => ⟨500, [d], []⟩

/-! ## Command dispatch queue (src/index.js lines 74-157) -/

/-- Observable actions of the queue toward the game session: a chat-equivalent
    instruction (`bot.chat(command)`) or an elapsed timer wait
    (`setTimeout(resolve, 500)` of the promise `executeCommand` returns). -/
inductive BotAct
  | chat (cmd : String)
  | wait (ms : Nat)
deriving DecidableEq, Repr

/-- The process-wide mutable state: `isReady`, whether `bot` is non-null, and
    `commandQueue`. -/
structure QueueState where
  isReady : Bool
  hasBot : Bool
  queue : List String
deriving DecidableEq, Repr

/-- `executeCommand` (src/index.js lines 146-157).  First result component:
    updated state (the not-ready branch unshifts the command back).  Second:
    the actions performed synchronously by the call.  Third: the actions a
    caller would observe by awaiting the returned
    `new Promise(resolve => setTimeout(resolve, 500))` — no caller in the
    program awaits it. -/
def executeCommand (s : QueueState) (cmd : String) :
    QueueState × List BotAct × List BotAct :=
  if !s.isReady || !s.hasBot then ({ s with queue := cmd :: s.queue }, [], [])
  else (s, [BotAct.chat cmd], [BotAct.wait 500])

/-- The `while (commandQueue.length > 0 && isReady)` loop of
    `processCommandQueue` (src/index.js lines 139-144), with the queue length
    as fuel (the loop is synchronous, so no event can change `isReady` while
    it runs; in every reachable state `isReady` implies a non-null `bot`, so
    the shift/unshift pair shrinks the queue by one per iteration).  The
    loop discards `executeCommand`'s returned promise, so only the
    synchronous actions enter the trace. -/
def drainAux : Nat → QueueState → List BotAct → QueueState × List BotAct
  | 0, s, acts => (s, acts)
  | Nat.succ n, s, acts =>
    match s.queue with
    | [] => (s, acts)
    | c :: rest =>
      if s.isReady then
        let r := executeCommand { s with queue := rest } c
        drainAux n r.1 (acts ++ r.2.1)
      else (s, acts)

/-- `processCommandQueue` (src/index.js lines 139-144). -/
def processCommandQueue (s : QueueState) : QueueState × List BotAct :=
  drainAux s.queue.length s []

/-- `queueCommand` (src/index.js lines 132-137): push, then drain only when
    ready. -/
def queueCommand (s : QueueState) (cmd : String) : QueueState × List BotAct :=
  let s1 : QueueState := { s with queue := s.queue ++ [cmd] }
  if s1.isReady then processCommandQueue s1 else (s1, [])

/-- External events acting on the queue state: `queueCommand` calls, the
    bot's `spawn` handler (src/index.js lines 98-102; it fires on the bot
    object `createBot` just created, so `bot` is non-null), and the
    `kicked`/`end` handlers (lines 104-114), which clear `isReady` and leave
    the queue untouched. -/
inductive BotEvent
  | enqueue (cmd : String)
  | spawn
  | disconnect
deriving DecidableEq, Repr

/-- One event's effect on the state, with the actions it performs. -/
def stepBot (s : QueueState) : BotEvent → QueueState × List BotAct
  | .enqueue cmd => queueCommand s cmd
  | .spawn => processCommandQueue { s with isReady := true, hasBot := true }
  | .disconnect => ({ s with isReady := false }, [])

/-- Run a sequence of events, concatenating the action traces. -/
def runBot (s : QueueState) : List BotEvent → QueueState × List BotAct
  | [] => (s, [])
  | e :: es =>
    let r := stepBot s e
    let r2 := runBot r.1 es
    (r2.1, r.2 ++ r2.2)

example :
    runBot ⟨false, false, []⟩
      [.enqueue "/afk 33", .enqueue "/pay Steve 1m", .spawn]
      = (⟨true, true, []⟩, [BotAct.chat "/afk 33", BotAct.chat "/pay Steve 1m"]) := by decide

/-! ## Concrete inputs used by the claim theorems -/

/-- A one-entry catalog with a Gold Pack product and no on-purchase command. -/
def goldProducts : List (String × ProductConfig) :=
  [("gold", { name := "Gold Pack", amountPerUnit := 1000000, onPurchaseCommand := none })]

/-- A completed invoice whose map-shaped custom-fields object is present but
    empty, while the array-shaped list does carry the in-game name. -/
def invC2 : Invoice :=
  { id := some "I2", invoice_id := none, status := some "completed",
    custom_fields := some [],
    custom_field_values := some [{ name := "in_game_name", value := some "Steve" }],
    items := some [{ product_name := some "Gold Pack", name := none, quantity := some 1 }] }

/-- A completed two-item invoice whose first item carries no product name. -/
def invC7 : Invoice :=
  { id := some "INV7", invoice_id := none, status := some "completed",
    custom_fields := some [("in_game_name", "Steve")],
    custom_field_values := none,
    items := some [{ product_name := none, name := none, quantity := none },
                   { product_name := some "Gold Pack", name := none, quantity := some 2 }] }

/-- A catalog in which the empty string is a key and another entry's display
    name is "Gold Pack". -/
def productsC4 : List (String × ProductConfig) :=
  [("", { name := "Alpha Pack", amountPerUnit := 500, onPurchaseCommand := none }),
   ("gold", { name := "Gold Pack", amountPerUnit := 1000000, onPurchaseCommand := none })]

/-- A sale embed whose description carries an invoice id and an in-game name
    but no "Product" label. -/
def discordCrashBody : DiscordBody :=
  { embeds := some [{ title := some "New Sale",
                      description := some "Invoice ID\nINV1\nIn game name\nSteve",
                      fields := none }] }

/-- The record the label-block parser extracts from `discordCrashBody`. -/
def discordCrashRecord : PurchaseData :=
  { invoiceId := some "INV1", productName := none, quantity := 1,
    inGameName := some "Steve", productId := none,
    status := some "completed", price := none }

/-! ## Claim theorems -/

/-- C1: the claim states that a fixed 500 ms inter-command delay elapses
    between any two deliveries of the drain loop.  The code builds the delay
    promise (`executeCommand` returns it, third component below) but
    `processCommandQueue` never awaits it, so a queue of two commands is
    chatted back-to-back in one synchronous loop with no wait between the
    deliveries. -/
theorem processCommandQueue_no_interdelay :
    processCommandQueue ⟨true, true, ["/afk 33", "/pay Steve 1m"]⟩
      = (⟨true, true, []⟩, [BotAct.chat "/afk 33", BotAct.chat "/pay Steve 1m"])
    ∧ BotAct.wait 500 ∉ (processCommandQueue ⟨true, true, ["/afk 33", "/pay Steve 1m"]⟩).2
    ∧ (executeCommand ⟨true, true, []⟩ "/afk 33").2.2 = [BotAct.wait 500] := by
  decide

/-- C4 counterexample: with the empty string as a catalog key, a record whose
    `productId` is exactly that key and whose name matches the other entry is
    resolved by name (JS truthiness of `data.productId` skips the identifier
    branch), contradicting the claim that the identifier-keyed entry wins. -/
theorem resolveProduct_empty_id_cex :
    jsLookup productsC4 ""
      = some { name := "Alpha Pack", amountPerUnit := 500, onPurchaseCommand := none }
    ∧ resolveProduct productsC4 (some "") (some "gold pack")
      = NameMatchResult.found "gold"
          { name := "Gold Pack", amountPerUnit := 1000000, onPurchaseCommand := none } := by
  decide

/-- C4 (amended): for every non-empty `productId` that is a catalog key, the
    identifier match wins no matter what the product name is; name matching
    is used exactly when the identifier is absent or not a (truthy) catalog
    key. -/
theorem resolveProduct_id_precedence (products : List (String × ProductConfig))
    (pname? : Option String) :
    (∀ pid cfg, pid ≠ "" → jsLookup products pid = some cfg →
        resolveProduct products (some pid) pname? = NameMatchResult.found pid cfg)
    ∧ (∀ pid, jsLookup products pid = none →
        resolveProduct products (some pid) pname? = findByName pname? products)
    ∧ resolveProduct products none pname? = findByName pname? products := by
  refine ⟨fun pid cfg hne hl => ?_, fun pid hl => ?_, rfl⟩
  · simp [resolveProduct, hne, hl]
  · by_cases he : pid = ""
    · simp [resolveProduct, he]
    · simp [resolveProduct, he, hl]

/-- Witness for C4's amended theorem: identifier "gold" beats the name
    "alpha pack" that matches the other entry. -/
theorem resolveProduct_id_precedence_witness :
    resolveProduct productsC4 (some "gold") (some "alpha pack")
      = NameMatchResult.found "gold"
          { name := "Gold Pack", amountPerUnit := 1000000, onPurchaseCommand := none } :=
  (resolveProduct_id_precedence productsC4 (some "alpha pack")).1 "gold"
    { name := "Gold Pack", amountPerUnit := 1000000, onPurchaseCommand := none }
    (by decide) (by decide)

/-- C5: the amount formatter satisfies the four sample equations and the
    claimed case structure (below one thousand the decimal string, divisible
    amounts print the exact integer quotient with the `k`/`m` suffix). -/
theorem formatAmount_spec :
    formatAmount 999 = "999" ∧ formatAmount 1000 = "1k"
    ∧ formatAmount 1000000 = "1m" ∧ formatAmount 1500000 = "1.5m"
    ∧ (∀ a : Int, a < 1000 → formatAmount a = toString a)
    ∧ (∀ a : Int, 1000000 ≤ a → a % 1000000 = 0 →
        formatAmount a = toString (a / 1000000) ++ "m")
    ∧ (∀ a : Int, 1000 ≤ a → a < 1000000 → a % 1000 = 0 →
        formatAmount a = toString (a / 1000) ++ "k") := by
  refine ⟨by decide, by decide, by decide, by decide, ?_, ?_, ?_⟩
  · intro a h
    unfold formatAmount
    rw [if_neg (show ¬ a ≥ 1000000 by omega), if_neg (show ¬ a ≥ 1000 by omega)]
  · intro a h1 h2
    unfold formatAmount formatScaled
    rw [if_pos (show a ≥ 1000000 by omega)]
    have hp : ((10 : Int) ^ 6) = 1000000 := by norm_num
    simp only [hp]
    rw [if_pos h2]
  · intro a h1 h2 h3
    unfold formatAmount formatScaled
    rw [if_neg (show ¬ a ≥ 1000000 by omega), if_pos (show a ≥ 1000 by omega)]
    have hp : ((10 : Int) ^ 3) = 1000 := by norm_num
    simp only [hp]
    rw [if_pos h3]

/-- Witness for C5 at concrete inputs 500 and 2000000. -/
theorem formatAmount_spec_witness :
    formatAmount 500 = toString (500 : Int)
    ∧ formatAmount 2000000 = toString ((2000000 : Int) / 1000000) ++ "m" :=
  ⟨formatAmount_spec.2.2.2.2.1 500 (by decide),
   formatAmount_spec.2.2.2.2.2.1 2000000 (by decide) (by decide)⟩

/-- C6: every structured invoice whose status is not "completed" is
    acknowledged with HTTP 200, yields zero purchase records and enqueues no
    commands. -/
theorem sellauth_skips_not_completed (cfn : String)
    (products : List (String × ProductConfig)) (inv : Invoice)
    (h : inv.status ≠ some "completed") :
    handleSellauth cfn products inv = ⟨200, [], []⟩ := by
  have hb : (inv.status == some "completed") = false := beq_eq_false_iff_ne.mpr h
  simp [handleSellauth, hb]

/-- Witness for C6: a pending invoice with items and a custom field is still
    a no-op. -/
theorem sellauth_skips_not_completed_witness :
    handleSellauth "in_game_name" defaultProducts
      { id := some "I0", invoice_id := none, status := some "pending",
        custom_fields := some [("in_game_name", "Steve")],
        custom_field_values := none,
        items := some [{ product_name := some "Gold Pack", name := none,
                         quantity := some 1 }] }
      = ⟨200, [], []⟩ :=
  sellauth_skips_not_completed "in_game_name" defaultProducts _ (by decide)

/-- C7: the claim says a completed two-item invoice with a resolvable
    recipient yields two records, each fed through the processor.  On this
    input the first item has no product name, `processPurchase` throws while
    dereferencing it, the loop aborts, only one record was fed, and the
    request is answered 500 instead of being acknowledged. -/
theorem sellauth_item_crash_aborts :
    handleSellauth "in_game_name" goldProducts invC7
      = ⟨500, [{ invoiceId := some "INV7", productName := none, quantity := 1,
                 inGameName := some "Steve", productId := none,
                 status := some "completed", price := none }], []⟩
    ∧ (invC7.items.getD []).length = 2 := by
  decide

/-- C10: a public `/webhook/discord` request whose sale embed carries an
    in-game name but no product line parses to a record with null
    `productName` and absent `productId`; `processPurchase` then throws a
    TypeError in the name-based fallback instead of returning the
    unknown-product outcome, and the HTTP request is answered 500. -/
theorem discord_null_product_crash :
    parseDiscordWebhook "in_game_name" discordCrashBody = some discordCrashRecord
    ∧ discordCrashRecord.productName = none
    ∧ discordCrashRecord.productId = none
    ∧ truthyOpt discordCrashRecord.inGameName = true
    ∧ processPurchase defaultProducts discordCrashRecord = ProcResult.thrown
    ∧ handleDiscord "in_game_name" defaultProducts discordCrashBody
        = ⟨500, [discordCrashRecord], []⟩ := by
  decide

/-- C2 counterexample: a completed invoice whose map-shaped custom-fields
    object is present but yields no value is rejected outright (HTTP 200,
    zero records, zero commands) even though the array-shaped list holds the
    name, contradicting the claimed map-then-array fallback order. -/
theorem sellauth_custom_fields_cex :
    handleSellauth "in_game_name" goldProducts invC2 = ⟨200, [], []⟩
    ∧ ((invC2.custom_field_values.getD []).find?
        (fun f => f.name == "in_game_name")).bind CustomFieldEntry.value = some "Steve"
    ∧ resolveInGameName "in_game_name" invC2 = none := by
  decide

/-- C2 (amended): the array-shaped list is consulted only when the map-shaped
    object is absent; when the object is present its lookup result is final,
    and a lookup that yields no value rejects the completed invoice
    (acknowledged with 200) regardless of the array's contents. -/
theorem customFields_branch_exclusive (cfn : String)
    (products : List (String × ProductConfig)) (inv : Invoice)
    (m : List (String × String)) (hm : inv.custom_fields = some m) :
    resolveInGameName cfn inv = jsLookup m cfn
    ∧ (truthyOpt (jsLookup m cfn) = false → inv.status = some "completed" →
        handleSellauth cfn products inv = ⟨200, [], []⟩) := by
  have h1 : resolveInGameName cfn inv = jsLookup m cfn := by
    simp [resolveInGameName, hm]
  refine ⟨h1, fun ht hs => ?_⟩
  simp [handleSellauth, hs, h1, ht]

/-- Witness for C2's amended theorem: an empty custom-fields object rejects
    the invoice although the array carries a value. -/
theorem customFields_branch_exclusive_witness :
    handleSellauth "in_game_name" goldProducts
      { id := none, invoice_id := none, status := some "completed",
        custom_fields := some [],
        custom_field_values := some [{ name := "in_game_name", value := some "X" }],
        items := none }
      = ⟨200, [], []⟩ :=
  (customFields_branch_exclusive "in_game_name" goldProducts
    { id := none, invoice_id := none, status := some "completed",
      custom_fields := some [],
      custom_field_values := some [{ name := "in_game_name", value := some "X" }],
      items := none } [] rfl).2 (by decide) rfl

/-- C3 counterexample: two fields both classified as `invoice` — the second
    one's value ends up in the record, so the FIRST matching field does not
    win. -/
theorem fieldList_first_match_cex :
    (parseEmbedFields "in_game_name" [⟨"Invoice", "A"⟩, ⟨"Order", "B"⟩]
        initDiscordData).invoiceId = some "B"
    ∧ classifyField "in_game_name" "Invoice" = FieldCat.invoice
    ∧ classifyField "in_game_name" "Order" = FieldCat.invoice := by
  decide

/-- Appending one field to the list applies one more step of the loop. -/
lemma parseEmbedFields_append_single (cfn : String) (fs : List EmbedField)
    (d : PurchaseData) (f : EmbedField) :
    parseEmbedFields cfn (fs ++ [f]) d
      = parseFieldStep cfn (parseEmbedFields cfn fs d) f := by
  simp [parseEmbedFields, List.foldl_append]

/-- One step leaves the quantity unchanged unless the field classifies as
    quantity with a numeric value. -/
lemma parseFieldStep_quantity_const (cfn : String) (d : PurchaseData)
    (f : EmbedField)
    (h : classifyField cfn f.name = FieldCat.quantity → parseIntJs f.value = none) :
    (parseFieldStep cfn d f).quantity = d.quantity := by
  cases hc : classifyField cfn f.name
  case quantity => simp [parseFieldStep, hc, h hc]
  all_goals simp [parseFieldStep, hc]

/-- The whole loop leaves the quantity unchanged when no field carries a
    numeric quantity. -/
lemma parseEmbedFields_quantity_const (cfn : String) :
    ∀ (fs : List EmbedField) (d : PurchaseData),
      (∀ g ∈ fs, classifyField cfn g.name = FieldCat.quantity →
        parseIntJs g.value = none) →
      (parseEmbedFields cfn fs d).quantity = d.quantity
  | [], _, _ => rfl
  | f :: fs, d, h => by
    have h1 : (parseFieldStep cfn d f).quantity = d.quantity :=
      parseFieldStep_quantity_const cfn d f (h f (List.mem_cons_self f fs))
    have h2 := parseEmbedFields_quantity_const cfn fs (parseFieldStep cfn d f)
      (fun g hg => h g (List.mem_cons_of_mem f hg))
    calc (parseEmbedFields cfn (f :: fs) d).quantity
        = (parseEmbedFields cfn fs (parseFieldStep cfn d f)).quantity := rfl
      _ = (parseFieldStep cfn d f).quantity := h2
      _ = d.quantity := h1

/-- C3 (amended): in the field-list strategy the LAST matching field wins for
    each category (every later match overwrites the earlier value), except
    that for quantity only numeric values overwrite: a non-numeric quantity
    field leaves the current value, and with no numeric quantity field at all
    the default 1 remains. -/
theorem fieldList_last_match_wins (cfn : String) (fs : List EmbedField)
    (d : PurchaseData) (f : EmbedField) :
    (classifyField cfn f.name = FieldCat.invoice →
        (parseEmbedFields cfn (fs ++ [f]) d).invoiceId = some f.value)
    ∧ (classifyField cfn f.name = FieldCat.product →
        (parseEmbedFields cfn (fs ++ [f]) d).productName = some f.value)
    ∧ (classifyField cfn f.name = FieldCat.recipient →
        (parseEmbedFields cfn (fs ++ [f]) d).inGameName = some f.value)
    ∧ (classifyField cfn f.name = FieldCat.productId →
        (parseEmbedFields cfn (fs ++ [f]) d).productId = some f.value)
    ∧ (∀ q : Int, classifyField cfn f.name = FieldCat.quantity →
        parseIntJs f.value = some q →
        (parseEmbedFields cfn (fs ++ [f]) d).quantity = q)
    ∧ (classifyField cfn f.name = FieldCat.quantity → parseIntJs f.value = none →
        (parseEmbedFields cfn (fs ++ [f]) d).quantity
          = (parseEmbedFields cfn fs d).quantity)
    ∧ ((∀ g ∈ fs, classifyField cfn g.name = FieldCat.quantity →
          parseIntJs g.value = none) →
        (parseEmbedFields cfn fs initDiscordData).quantity = 1) := by
  refine ⟨fun h => ?_, fun h => ?_, fun h => ?_, fun h => ?_,
    fun q h hq => ?_, fun h hq => ?_, fun h => ?_⟩
  · rw [parseEmbedFields_append_single]; simp [parseFieldStep, h]
  · rw [parseEmbedFields_append_single]; simp [parseFieldStep, h]
  · rw [parseEmbedFields_append_single]; simp [parseFieldStep, h]
  · rw [parseEmbedFields_append_single]; simp [parseFieldStep, h]
  · rw [parseEmbedFields_append_single]; simp [parseFieldStep, h, hq]
  · rw [parseEmbedFields_append_single]; simp [parseFieldStep, h, hq]
  · exact parseEmbedFields_quantity_const cfn fs initDiscordData h

/-- Witness for C3's amended theorem: an appended invoice-classified field
    overwrites the earlier value. -/
theorem fieldList_last_match_wins_witness :
    (parseEmbedFields "in_game_name" ([⟨"Product", "Gold"⟩] ++ [⟨"Invoice", "X"⟩])
        initDiscordData).invoiceId = some "X" :=
  (fieldList_last_match_wins "in_game_name" [⟨"Product", "Gold"⟩]
    initDiscordData ⟨"Invoice", "X"⟩).1 (by decide)

/-- Draining a ready state with a live bot chats the whole queue in order. -/
lemma drainAux_ready :
    ∀ (n : Nat) (q : List String) (acts : List BotAct), q.length ≤ n →
      drainAux n ⟨true, true, q⟩ acts = (⟨true, true, []⟩, acts ++ q.map BotAct.chat)
  | 0, [], acts, _ => by simp [drainAux]
  | 0, _ :: _, _, h => by simp at h
  | Nat.succ n, [], acts, _ => by simp [drainAux]
  | Nat.succ n, c :: rest, acts, h => by
    have hle : rest.length ≤ n := by simp at h; omega
    have ih := drainAux_ready n rest (acts ++ [BotAct.chat c]) hle
    have e1 : drainAux (Nat.succ n) ⟨true, true, c :: rest⟩ acts
        = drainAux n ⟨true, true, rest⟩ (acts ++ [BotAct.chat c]) := rfl
    rw [e1, ih]
    simp

/-- `processCommandQueue` on a ready state with a live bot. -/
lemma processCommandQueue_ready (q : List String) :
    processCommandQueue ⟨true, true, q⟩ = (⟨true, true, []⟩, q.map BotAct.chat) := by
  simpa [processCommandQueue] using drainAux_ready q.length q [] le_rfl

/-- Enqueue events on a disconnected state only append; nothing is chatted. -/
lemma runBot_enqueue_disconnected :
    ∀ (cmds : List String) (s : QueueState), s.isReady = false →
      runBot s (cmds.map BotEvent.enqueue) = ({ s with queue := s.queue ++ cmds }, [])
  | [], s, _ => by simp [runBot]
  | c :: cs, s, h => by
    have step1 : stepBot s (BotEvent.enqueue c)
        = ({ s with queue := s.queue ++ [c] }, []) := by
      simp [stepBot, queueCommand, h]
    have ih := runBot_enqueue_disconnected cs { s with queue := s.queue ++ [c] } h
    simp [runBot, step1, ih, List.append_assoc]

/-- C8: enqueues performed while disconnected chat nothing and only extend
    the pending queue; the next connected transition (the spawn handler)
    chats every pending command in insertion order and empties the queue; a
    disconnect chats nothing and keeps the pending queue for the next
    connected transition. -/
theorem queue_fifo_after_reconnect (s : QueueState) (cmds : List String)
    (h : s.isReady = false) :
    (runBot s (cmds.map BotEvent.enqueue)).2 = []
    ∧ (runBot s (cmds.map BotEvent.enqueue)).1.queue = s.queue ++ cmds
    ∧ (stepBot (runBot s (cmds.map BotEvent.enqueue)).1 BotEvent.spawn).2
        = (s.queue ++ cmds).map BotAct.chat
    ∧ (stepBot (runBot s (cmds.map BotEvent.enqueue)).1 BotEvent.spawn).1.queue = []
    ∧ (∀ s' : QueueState, (stepBot s' BotEvent.disconnect).1.queue = s'.queue
        ∧ (stepBot s' BotEvent.disconnect).2 = []) := by
  have hrun := runBot_enqueue_disconnected cmds s h
  rw [hrun]
  have hspawn : stepBot ({ s with queue := s.queue ++ cmds }) BotEvent.spawn
      = (⟨true, true, []⟩, (s.queue ++ cmds).map BotAct.chat) := by
    show processCommandQueue ⟨true, true, s.queue ++ cmds⟩ = _
    exact processCommandQueue_ready (s.queue ++ cmds)
  refine ⟨rfl, rfl, ?_, ?_, fun s' => ⟨rfl, rfl⟩⟩
  · rw [hspawn]
  · rw [hspawn]

/-- Witness for C8: one command pending before the disconnect period, two
    enqueued while disconnected, all three chatted in order at spawn. -/
theorem queue_fifo_after_reconnect_witness :
    (stepBot (runBot ⟨false, false, ["/home1"]⟩
        (List.map BotEvent.enqueue ["/afk 33", "/pay Alex 3m"])).1 BotEvent.spawn).2
      = List.map BotAct.chat (["/home1"] ++ ["/afk 33", "/pay Alex 3m"]) :=
  (queue_fifo_after_reconnect ⟨false, false, ["/home1"]⟩
    ["/afk 33", "/pay Alex 3m"] rfl).2.2.1

/-- C9: a record with a truthy in-game name whose product resolves enqueues
    the on-purchase command verbatim (once, independent of quantity) followed
    by the `/pay` command for `amountPerUnit * quantity`; without a truthy
    on-purchase command only the `/pay` command is enqueued. -/
theorem purchase_commands_order (products : List (String × ProductConfig))
    (d : PurchaseData) (name pid : String) (cfg : ProductConfig)
    (hname : d.inGameName = some name) (hne : name ≠ "")
    (hres : resolveProduct products d.productId d.productName
      = NameMatchResult.found pid cfg) :
    (∀ c, cfg.onPurchaseCommand = some c → c ≠ "" →
        processPurchase products d
          = ProcResult.done
              [c, "/pay " ++ name ++ " " ++ formatAmount (cfg.amountPerUnit * d.quantity)]
              Outcome.success)
    ∧ (cfg.onPurchaseCommand = none →
        processPurchase products d
          = ProcResult.done
              ["/pay " ++ name ++ " " ++ formatAmount (cfg.amountPerUnit * d.quantity)]
              Outcome.success)
    ∧ (cfg.onPurchaseCommand = some "" →
        processPurchase products d
          = ProcResult.done
              ["/pay " ++ name ++ " " ++ formatAmount (cfg.amountPerUnit * d.quantity)]
              Outcome.success) := by
  have htr : truthyOpt (some name) = true := by
    simp [truthyOpt, hne]
  refine ⟨fun c hc hcne => ?_, fun hc => ?_, fun hc => ?_⟩
  · simp [processPurchase, htr, hres, hc, hcne, hname]
  · simp [processPurchase, htr, hres, hc, hname]
  · simp [processPurchase, htr, hres, hc, hname]

/-- Witness for C9: Gold Pack with an `/afk 33` on-purchase command and
    quantity 2 enqueues exactly the reward command then `/pay Steve 2m`. -/
theorem purchase_commands_order_witness :
    processPurchase
      [("gold", { name := "Gold Pack", amountPerUnit := 1000000,
                  onPurchaseCommand := some "/afk 33" })]
      { invoiceId := some "MANUAL", productName := some "Gold Pack", quantity := 2,
        inGameName := some "Steve", productId := none,
        status := some "completed", price := none }
      = ProcResult.done ["/afk 33", "/pay Steve 2m"] Outcome.success := by
  have h := (purchase_commands_order
    [("gold", { name := "Gold Pack", amountPerUnit := 1000000,
                onPurchaseCommand := some "/afk 33" })]
    { invoiceId := some "MANUAL", productName := some "Gold Pack", quantity := 2,
      inGameName := some "Steve", productId := none,
      status := some "completed", price := none }
    "Steve" "gold"
    { name := "Gold Pack", amountPerUnit := 1000000,
      onPurchaseCommand := some "/afk 33" }
    rfl (by decide) (by decide)).1 "/afk 33" rfl (by decide)
  exact h.trans (by decide)

end DonutShop
